import Mathlib

/-!
Verification of the multi-backend RAG orchestrator (Gemini-Chatbot backend).

Shallow embedding of `src/backend/app.py`, `src/backend/document_processor.py`,
`src/backend/vectorstores/milvus_store.py` and
`src/backend/vectorstores/mongodb_store.py`.  Network effects (the actual
database drivers, the generative model) are parameters; the orchestration,
selection, caching and fallback logic is translated directly from the code.
Python floats are modelled as rationals.
-/

/-- The six backend identifiers, in the iteration order of the `db_map`
dictionary of `app.py` (insertion order, which Python dicts preserve). -/
inductive Backend where
  | faiss
  | chroma
  | weaviate
  | mongo
  | pgvector
  | milvus
deriving DecidableEq, Repr

/-- The six backends, in `db_map` / `available_dbs` iteration order. -/
def allBackends : List Backend :=
  [Backend.faiss, Backend.chroma, Backend.weaviate, Backend.mongo,
   Backend.pgvector, Backend.milvus]

/-- The string identifier of each backend, as used in the dictionaries of
`app.py`. -/
def Backend.name : Backend → String
  | .faiss => "faiss"
  | .chroma => "chroma"
  | .weaviate => "weaviate"
  | .mongo => "mongo"
  | .pgvector => "pgvector"
  | .milvus => "milvus"

/-- A retrieved document as it appears in a backend's `similarity_search`
output: chunk content plus a similarity/distance score. -/
structure RDoc where
  content : String
  score : ℚ
deriving DecidableEq, Repr

/-- The outcome recorded in `all_results[db_name]` for one backend during the
compare-all loop of `rag_query` (`app.py` lines 273-312): either a failure
entry (`success: False` — store object is `None`, availability flag false, or
the search raised) or a success entry carrying the elapsed query time and the
retrieved documents. -/
inductive QueryOutcome where
  | failure (err : String)
  | success (time : ℚ) (docs : List RDoc)
deriving DecidableEq, Repr

/-- The documents carried by an outcome (a failure entry carries none). -/
def docsOf : QueryOutcome → List RDoc
  | .failure _ => []
  | .success _ docs => docs

/-- Whether an outcome is a recorded failure. -/
def QueryOutcome.isFailure : QueryOutcome → Bool
  | .failure _ => true
  | .success _ _ => false

/-- `t < min_time` where `min_time` starts as `float('inf')` (modelled as
`none`). -/
def timeLt (t : ℚ) : Option ℚ → Bool
  | none => true
  | some m => decide (t < m)

/-- The mutable selection state of the compare-all loop of `rag_query`:
`min_time` (`none` = `float('inf')`), `best_db`, `max_results`,
`best_retrieved_docs`. -/
structure SelAcc where
  minTime : Option ℚ
  bestDb : Option String
  maxResults : Nat
  bestDocs : List RDoc
deriving DecidableEq, Repr

/-- Initial selection state (`app.py` lines 268-271). -/
def initSelAcc : SelAcc := ⟨none, none, 0, []⟩

/-- One iteration of the first compare-all loop (`app.py` lines 295-301):
on a successful search, if `db_query_time < min_time and
len(retrieved_docs) > 0`, the backend becomes the current best. -/
def selStep (acc : SelAcc) (entry : String × QueryOutcome) : SelAcc :=
  match entry.2 with
  | .failure _ => acc
  | .success t docs =>
    if timeLt t acc.minTime && decide (0 < docs.length) then
      ⟨some t, some entry.1, docs.length, docs⟩
    else acc

/-- One iteration of the fallback loop (`app.py` lines 315-322): among
successful entries with a truthy (non-empty) `retrieved_docs`, take the one
with the strictly largest count, first maximum winning. -/
def fbStep (acc : SelAcc) (entry : String × QueryOutcome) : SelAcc :=
  match entry.2 with
  | .failure _ => acc
  | .success _ docs =>
    if !docs.isEmpty && decide (acc.maxResults < docs.length) then
      { acc with bestDb := some entry.1, maxResults := docs.length,
                 bestDocs := docs }
    else acc

/-- The compare-all backend selection of `rag_query` (`app.py` lines 268-322):
the timing loop over all per-backend outcomes, followed by the
largest-result-count fallback loop, which runs only when `best_db` is still
`None`. -/
def compareSelect (l : List (String × QueryOutcome)) : SelAcc :=
  let acc := l.foldl selStep initSelAcc
  if acc.bestDb.isNone then l.foldl fbStep acc else acc

/-- The caller-visible payload of a compare-all `rag_query` call:
`rag_query` wraps it in a JSON-RPC `Success` (`success := true`).
`synthCalled` records whether `generate_rag_response` (the Answer Synthesizer
wrapper) was invoked for this call. -/
structure CompareResult where
  success : Bool
  query : String
  response : String
  bestDb : Option String
  synthCalled : Bool
deriving DecidableEq, Repr

/-- The tail of the compare-all path (`app.py` lines 324-336):
`rag_response = generate_rag_response(query, best_retrieved_docs) if
max_results > 0 else "No results found."`, then a `Success` payload carrying
`success: True`, the response and `best_db`.  The Answer Synthesizer is the
parameter `synth`. -/
def ragQueryCompare (synth : String → List RDoc → String) (query : String)
    (l : List (String × QueryOutcome)) : CompareResult :=
  let acc := compareSelect l
  if 0 < acc.maxResults then
    ⟨true, query, synth query acc.bestDocs, acc.bestDb, true⟩
  else
    ⟨true, query, "No results found.", acc.bestDb, false⟩

/-- Amended selection rule (what the code actually implements): the winner is
the first backend in iteration order attaining the strictly minimal elapsed
time among successful outcomes with a non-empty result set; a tie on minimal
time is resolved in favour of the earlier backend (never by result count);
`none` when no successful outcome has a non-empty result set (in which case
the count fallback also finds nothing, since every recorded time is finite). -/
def firstMinNE : List (String × QueryOutcome) → Option (String × ℚ × List RDoc)
  | [] => none
  | (_, .failure _) :: rest => firstMinNE rest
  | (b, .success t docs) :: rest =>
    if docs.isEmpty then firstMinNE rest
    else
      match firstMinNE rest with
      | none => some (b, t, docs)
      | some (b', t', d') =>
        if t' < t then some (b', t', d') else some (b, t, docs)

/-- The selection state corresponding to a `firstMinNE` result. -/
def selAccOf : Option (String × ℚ × List RDoc) → SelAcc
  | none => initSelAcc
  | some (b, t, docs) => ⟨some t, some b, docs.length, docs⟩

/-- Merging a pending best state with the result of scanning the remaining
entries: the scan result replaces the pending state exactly when its time
beats the pending minimal time. -/
def mergeSel (acc : SelAcc) : Option (String × ℚ × List RDoc) → SelAcc
  | none => acc
  | some (b, t, docs) =>
    if timeLt t acc.minTime then ⟨some t, some b, docs.length, docs⟩ else acc

theorem timeLt_none (t : ℚ) : timeLt t none = true := rfl

theorem timeLt_some (t m : ℚ) : timeLt t (some m) = decide (t < m) := rfl

theorem selLoop_merge (l : List (String × QueryOutcome)) (acc : SelAcc) :
    l.foldl selStep acc = mergeSel acc (firstMinNE l) := by
  induction l generalizing acc with
  | nil => rfl
  | cons hd rest ih =>
    obtain ⟨b, o⟩ := hd
    cases o with
    | failure e =>
      simpa only [List.foldl_cons, selStep, firstMinNE] using ih acc
    | success t docs =>
      rcases docs with _ | ⟨d0, dtl⟩
      · -- empty result set: neither loop nor rule considers this entry
        have hc : (timeLt t acc.minTime
            && decide (0 < ([] : List RDoc).length)) = false := by simp
        simp only [List.foldl_cons, selStep, hc, Bool.false_eq_true,
          if_false, firstMinNE, List.isEmpty_nil, if_true]
        exact ih acc
      · have hlen : (0 < (d0 :: dtl).length) := Nat.succ_pos _
        simp only [List.foldl_cons, selStep, firstMinNE, List.isEmpty_cons,
          Bool.false_eq_true, if_false, decide_eq_true hlen, Bool.and_true]
        by_cases ht : timeLt t acc.minTime = true
        · rw [if_pos ht, ih]
          rcases hfm : firstMinNE rest with _ | ⟨b', t', d'⟩
          · simp [hfm, mergeSel, ht]
          · by_cases htt : t' < t
            · -- a later, strictly faster candidate also beats acc
              have ht' : timeLt t' acc.minTime = true := by
                cases hmt : acc.minTime with
                | none => rfl
                | some m =>
                  rw [hmt] at ht
                  simp only [timeLt_some, decide_eq_true_eq] at ht ⊢
                  exact lt_trans htt ht
              simp [hfm, mergeSel, timeLt_some, htt, ht']
            · simp [hfm, mergeSel, timeLt_some, htt, ht]
        · have htf : timeLt t acc.minTime = false := by
            revert ht; cases timeLt t acc.minTime <;> simp
          rw [htf]
          simp only [Bool.false_eq_true, if_false, ih]
          rcases hfm : firstMinNE rest with _ | ⟨b', t', d'⟩
          · simp [hfm, mergeSel, htf]
          · by_cases htt : t' < t
            · simp [hfm, mergeSel, htt]
            · -- neither the head nor the (no faster) later candidate beats acc
              have ht'f : timeLt t' acc.minTime = false := by
                cases hmt : acc.minTime with
                | none => rw [hmt] at htf; exact absurd htf (by simp [timeLt])
                | some m =>
                  rw [hmt] at htf
                  simp only [timeLt_some, decide_eq_false_iff_not] at htf ⊢
                  intro hc
                  exact absurd (lt_of_lt_of_le hc
                    (le_trans (not_lt.mp htf) (not_lt.mp htt))) (lt_irrefl t')
              simp [hfm, mergeSel, htt, htf, ht'f]

theorem firstMinNE_none_of_all_empty (l : List (String × QueryOutcome))
    (h : ∀ p ∈ l, docsOf p.2 = []) : firstMinNE l = none := by
  induction l with
  | nil => rfl
  | cons hd rest ih =>
    obtain ⟨b, o⟩ := hd
    cases o with
    | failure e =>
      simp only [firstMinNE]
      exact ih fun p hp => h p (List.mem_cons_of_mem _ hp)
    | success t docs =>
      have hdocs : docs = [] := h (b, .success t docs) (List.mem_cons_self _ _)
      simp only [firstMinNE, hdocs, List.isEmpty_nil, if_true]
      exact ih fun p hp => h p (List.mem_cons_of_mem _ hp)

theorem fb_inert (l : List (String × QueryOutcome)) (acc : SelAcc)
    (h : firstMinNE l = none) : l.foldl fbStep acc = acc := by
  induction l generalizing acc with
  | nil => rfl
  | cons hd rest ih =>
    obtain ⟨b, o⟩ := hd
    cases o with
    | failure e =>
      simp only [firstMinNE] at h
      simp only [List.foldl_cons, fbStep]
      exact ih acc h
    | success t docs =>
      rcases docs with _ | ⟨d0, dtl⟩
      · simp only [firstMinNE, List.isEmpty_nil, if_true] at h
        simp only [List.foldl_cons, fbStep, List.isEmpty_nil, Bool.not_true,
          Bool.false_and, Bool.false_eq_true, if_false]
        exact ih acc h
      · exfalso
        simp only [firstMinNE, List.isEmpty_cons, Bool.false_eq_true,
          if_false] at h
        rcases hfm : firstMinNE rest with _ | ⟨b', t', d'⟩ <;> rw [hfm] at h
        · exact Option.some_ne_none _ h
        · have h' : (if t' < t then some (b', t', d')
              else some (b, t, d0 :: dtl)) = none := h
          split at h' <;> exact Option.some_ne_none _ h'

/-- General form of the compare-all selection: the code's two loops compute
exactly the first-minimal-time rule `firstMinNE`. -/
theorem compareSelect_eq (l : List (String × QueryOutcome)) :
    compareSelect l = selAccOf (firstMinNE l) := by
  unfold compareSelect
  rw [selLoop_merge]
  rcases hfm : firstMinNE l with _ | ⟨b, t, docs⟩
  · simp only [mergeSel, initSelAcc, Option.isNone_none, if_true]
    exact fb_inert l _ hfm
  · simp [mergeSel, selAccOf, timeLt, initSelAcc]

/-- Common core for the total-failure / no-results paths: when no per-backend
outcome carries any document, compare-all returns a success payload with the
literal fallback answer, no selected backend, and no synthesizer call. -/
theorem ragQueryCompare_all_empty (synth : String → List RDoc → String)
    (q : String) (l : List (String × QueryOutcome))
    (h : ∀ p ∈ l, docsOf p.2 = []) :
    ragQueryCompare synth q l
      = ⟨true, q, "No results found.", none, false⟩ := by
  have hfm := firstMinNE_none_of_all_empty l h
  unfold ragQueryCompare
  rw [compareSelect_eq, hfm]
  simp [selAccOf, initSelAcc]

/-- **C1** (amended).  The claim's tie rule is wrong: in compare-all mode the
selected backend is the first backend in registry iteration order attaining
the strictly minimal elapsed time among backends that returned a non-empty
result set; a tie on the minimal elapsed time is resolved in favour of the
earlier backend, not by result count.  The largest-result-count fallback runs
only when no backend had both a non-empty result set and a recorded time, and
since every recorded time is finite it then finds no candidate either, so the
selection stays empty. -/
theorem claim1_selection_is_first_min_time
    (l : List (String × QueryOutcome)) :
    compareSelect l = selAccOf (firstMinNE l) :=
  compareSelect_eq l

/-- **C1** counterexample: two backends both succeed with the same elapsed
time 1; the second returns strictly more documents.  The claim's tie rule
selects the larger-count backend ("chroma"); the code selects the first one
("faiss"). -/
theorem claim1_tie_counterexample :
    let l := [("faiss", QueryOutcome.success 1 [⟨"doc-a", 0⟩]),
              ("chroma", QueryOutcome.success 1 [⟨"doc-b", 0⟩, ⟨"doc-c", 0⟩])]
    (compareSelect l).bestDb = some "faiss" ∧
      (compareSelect l).bestDb ≠ some "chroma" := by
  constructor <;> decide

/-- **C2** counterexample: with every backend failing during a compare-all
query, `rag_query` returns a JSON-RPC Success payload (`success: True`)
carrying the empty-result fallback answer — not an explicit failure. -/
theorem claim2_counterexample :
    let r := ragQueryCompare (fun _ _ => "SYNTH") "q"
      [("faiss", QueryOutcome.failure "e1"),
       ("chroma", QueryOutcome.failure "e2"),
       ("weaviate", QueryOutcome.failure "e3"),
       ("mongo", QueryOutcome.failure "e4"),
       ("pgvector", QueryOutcome.failure "e5"),
       ("milvus", QueryOutcome.failure "e6")]
    r.success = true ∧ r.response = "No results found." ∧ r.bestDb = none := by
  refine ⟨?_, ?_, ?_⟩ <;> decide

/-- **C2** (amended).  When every backend fails during a compare-all query,
the call is reported to the caller as a *success* response carrying the
literal "No results found." answer with no selected backend; an all-backends
total failure is surfaced as an explicit failure only on the ingestion path,
not on the query path. -/
theorem claim2_amended_total_query_failure_is_success
    (synth : String → List RDoc → String) (q : String)
    (l : List (String × QueryOutcome))
    (h : ∀ p ∈ l, p.2.isFailure = true) :
    ragQueryCompare synth q l
      = ⟨true, q, "No results found.", none, false⟩ := by
  apply ragQueryCompare_all_empty
  intro p hp
  rcases hps : p.2 with e | ⟨t, d⟩
  · simp [docsOf]
  · have hf := h p hp
    rw [hps] at hf
    simp [QueryOutcome.isFailure] at hf

/-- Witness for the amended C2 at a concrete all-failed outcome set. -/
theorem claim2_amended_witness :
    ragQueryCompare (fun _ docs => toString docs.length) "query"
      [("faiss", QueryOutcome.failure "connection refused")]
      = ⟨true, "query", "No results found.", none, false⟩ :=
  claim2_amended_total_query_failure_is_success _ _ _ (by decide)

/-- **C5**: when zero backends return any result in compare-all mode (every
outcome is a failure or a success with an empty result set), the returned
answer is the literal fallback string "No results found." and the Answer
Synthesizer is not invoked (`synthCalled = false`, and the result does not
depend on the synthesizer function at all). -/
theorem claim5_no_results_skips_synth (synth : String → List RDoc → String)
    (q : String) (l : List (String × QueryOutcome))
    (h : ∀ p ∈ l, docsOf p.2 = []) :
    ragQueryCompare synth q l
      = ⟨true, q, "No results found.", none, false⟩ :=
  ragQueryCompare_all_empty synth q l h

/-- Witness for C5 at a concrete outcome set mixing a failed backend and a
successful backend with an empty result set. -/
theorem claim5_witness :
    ragQueryCompare (fun q _ => q ++ "!") "qq"
      [("faiss", QueryOutcome.failure "down"),
       ("mongo", QueryOutcome.success 1 [])]
      = ⟨true, "qq", "No results found.", none, false⟩ :=
  claim5_no_results_skips_synth _ _ _ (by decide)

/-- The outcome of one backend's indexing section inside `process_document`
(`document_processor.py` lines 128-284): `ok t` when the section ran to
completion (its elapsed time `t` is recorded and the backend is marked
available), `failed` when the section was skipped (missing library, missing
credentials, client initialization failed) or raised an exception. -/
inductive IndexOutcome where
  | ok (time : ℚ)
  | failed
deriving DecidableEq, Repr

/-- The `indexing_times` dictionary after the indexing sections: initialised
to the sentinel `-1` for every backend (`document_processor.py` lines 82-89)
and overwritten with the elapsed time for each section that completes. -/
def indexingTimes (out : Backend → IndexOutcome) (b : Backend) : ℚ :=
  match out b with
  | .ok t => t
  | .failed => -1

/-- The `available_dbs` dictionary after the indexing sections: initialised
to `False` for every backend (`document_processor.py` lines 92-99) and set to
`True` for each section that completes. -/
def indexedAvail (out : Backend → IndexOutcome) (b : Backend) : Bool :=
  match out b with
  | .ok _ => true
  | .failed => false

/-- The caller-visible result of `process_document`: either an overall
failure message or overall success with the per-backend timing metrics and
availability flags. -/
inductive IngestReport where
  | failure (message : String)
  | success (times : Backend → ℚ) (avail : Backend → Bool)

/-- The chunk-indexing stage of `process_document`
(`document_processor.py` lines 77-302): an empty chunk list is an immediate
failure; otherwise the six backend sections run (summarised by `out`) and the
call fails iff `not any(available_dbs.values())`, succeeding otherwise with
the timing metrics and availability flags. -/
def processChunks (chunks : List String) (out : Backend → IndexOutcome) :
    IngestReport :=
  if chunks.isEmpty then
    .failure "Failed to process document into text chunks"
  else if allBackends.any (fun b => indexedAvail out b) then
    .success (indexingTimes out) (indexedAvail out)
  else
    .failure "Indexing failed for all databases."

theorem mem_allBackends (b : Backend) : b ∈ allBackends := by
  cases b <;> simp [allBackends]

/-- **C6**: over a non-empty chunk batch, if every backend's indexing section
fails the ingestion call reports overall failure; if at least one backend
succeeds, the call reports overall success with per-backend metrics in which
every failed or skipped backend carries the sentinel time `-1` and an
unavailable flag. -/
theorem claim6_ingestion_partial_failure (chunks : List String)
    (out : Backend → IndexOutcome) (hne : chunks ≠ []) :
    ((∀ b, out b = .failed) →
      processChunks chunks out = .failure "Indexing failed for all databases.")
    ∧ (∀ b₀ t₀, out b₀ = .ok t₀ →
        processChunks chunks out
          = .success (indexingTimes out) (indexedAvail out)
        ∧ ∀ b, out b = .failed →
            indexingTimes out b = -1 ∧ indexedAvail out b = false) := by
  have hempty : chunks.isEmpty = false := by
    cases chunks with
    | nil => exact absurd rfl hne
    | cons c cs => rfl
  constructor
  · intro hall
    have hany : allBackends.any (fun b => indexedAvail out b) = false := by
      simp only [List.any_eq_false]
      intro b _
      simp [indexedAvail, hall b]
    simp [processChunks, hempty, hany]
  · intro b₀ t₀ hok
    have hany : allBackends.any (fun b => indexedAvail out b) = true := by
      simp only [List.any_eq_true]
      exact ⟨b₀, mem_allBackends b₀, by simp [indexedAvail, hok]⟩
    refine ⟨by simp [processChunks, hempty, hany], ?_⟩
    intro b hb
    simp [indexingTimes, indexedAvail, hb]

/-- Witness for C6: one chunk; faiss succeeds in time 2, every other backend
fails; the call succeeds and chroma (failed) carries `-1` / unavailable. -/
theorem claim6_witness :
    let out : Backend → IndexOutcome :=
      fun b => match b with
        | .faiss => .ok 2
        | _ => .failed
    processChunks ["chunk one"] out
      = .success (indexingTimes out) (indexedAvail out)
    ∧ indexingTimes out Backend.chroma = -1
    ∧ indexedAvail out Backend.chroma = false := by
  intro out
  obtain ⟨h1, h2⟩ := (claim6_ingestion_partial_failure ["chunk one"] out
    (by decide)).2 Backend.faiss 2 rfl
  exact ⟨h1, h2 Backend.chroma rfl⟩

/-- The cross-request mutable state of `app.py`: the module-level
`available_dbs` dictionary (lines 138-146). -/
structure AppState where
  avail : Backend → Bool

/-- The `chat` RPC method (`app.py` lines 186-193): calls the generative
model and returns its response; never touches `available_dbs`. -/
def chat_call (st : AppState) (model : String → String) (message : String) :
    AppState × String :=
  (st, model message)

/-- The `rag_query` RPC method's effect on module state: it only reads
`available_dbs` (`app.py` lines 239-364); the returned state is unchanged. -/
def rag_query_call (st : AppState) (synth : String → List RDoc → String)
    (q : String) (l : List (String × QueryOutcome)) :
    AppState × CompareResult :=
  (st, ragQueryCompare synth q l)

/-- The `upload_document` RPC method's effect on module state
(`app.py` lines 219-229): on a successful `process_document` result the
global `available_dbs` is overwritten wholesale with
`result["document"]["available_dbs"]`; on failure it is left unchanged.  The
returned Bool is whether the RPC reports Success. -/
def upload_document_call (st : AppState) (report : IngestReport) :
    AppState × Bool :=
  match report with
  | .success _ avail => (⟨avail⟩, true)
  | .failure _ => (st, false)

/-- **C3** counterexample: starting from a registry state in which every
backend is available, a document upload whose indexing succeeded only for
faiss rewrites the availability flags, flipping chroma's flag from available
to unavailable — so the flags are not written exactly once at registry
initialization. -/
theorem claim3_counterexample :
    let st : AppState := ⟨fun _ => true⟩
    let report : IngestReport :=
      .success (indexingTimes fun _ => .failed)
        (fun b => decide (b = Backend.faiss))
    st.avail Backend.chroma = true ∧
      (upload_document_call st report).1.avail Backend.chroma = false := by
  exact ⟨rfl, rfl⟩

/-- **C3** (amended).  The availability flags are never mutated by chat or
retrieval calls, but each *successful* document-upload call overwrites them
wholesale with the per-backend indexing availability of that upload; a failed
upload leaves them unchanged. -/
theorem claim3_amended_only_upload_mutates (st : AppState)
    (model : String → String) (message : String)
    (synth : String → List RDoc → String) (q : String)
    (l : List (String × QueryOutcome)) (report : IngestReport) :
    (chat_call st model message).1 = st
    ∧ (rag_query_call st synth q l).1 = st
    ∧ (upload_document_call st report).1.avail
        = (match report with
           | .success _ avail => avail
           | .failure _ => st.avail) := by
  refine ⟨rfl, rfl, ?_⟩
  cases report <;> rfl

/-- The `get_available_dbs` RPC method (`app.py` lines 366-375): filter the
registry to the available backends; if the filtered list is empty, default to
the full list of all six backend identifiers. -/
def get_available_dbs (avail : Backend → Bool) : List String :=
  let availableDatabases := (allBackends.filter (fun b => avail b)).map
    Backend.name
  if availableDatabases.isEmpty then allBackends.map Backend.name
  else availableDatabases

theorem backend_name_inj (b b' : Backend) (h : Backend.name b = Backend.name b') :
    b = b' := by
  cases b <;> cases b' <;> first
    | rfl
    | exact absurd h (by decide)

/-- **C7** counterexample: when no backend initialized successfully,
`get_available_dbs` does not return the empty set — it falls back to listing
all six identifiers, including backends whose initialization failed. -/
theorem claim7_counterexample :
    get_available_dbs (fun _ => false)
      = ["faiss", "chroma", "weaviate", "mongo", "pgvector", "milvus"]
    ∧ (fun (_ : Backend) => false) Backend.faiss = false
    ∧ "faiss" ∈ get_available_dbs (fun _ => false) := by
  exact ⟨rfl, rfl, by decide⟩

/-- **C7** (amended).  Whenever at least one backend is available, the
list-available-backends operation returns exactly the identifiers of the
available backends; only when *no* backend is available does it fall back to
returning all six identifiers (including failed ones). -/
theorem claim7_amended_lists_available (avail : Backend → Bool)
    (b₀ : Backend) (h₀ : avail b₀ = true) (b : Backend) :
    Backend.name b ∈ get_available_dbs avail ↔ avail b = true := by
  have hmem : b₀ ∈ allBackends.filter (fun b => avail b) := by
    simp [List.mem_filter, mem_allBackends, h₀]
  have hne : ((allBackends.filter (fun b => avail b)).map Backend.name).isEmpty
      = false := by
    rcases hf : allBackends.filter (fun b => avail b) with _ | ⟨x, xs⟩
    · rw [hf] at hmem; simp at hmem
    · rfl
  unfold get_available_dbs
  simp only [hne, Bool.false_eq_true, if_false, List.mem_map]
  constructor
  · rintro ⟨b', hb', hname⟩
    rw [List.mem_filter] at hb'
    rw [← backend_name_inj b' b hname]
    exact hb'.2
  · intro hb
    exact ⟨b, by simp [List.mem_filter, mem_allBackends, hb], rfl⟩

/-- Witness for the amended C7: only faiss available; chroma's identifier is
listed iff chroma is available (it is not). -/
theorem claim7_amended_witness :
    Backend.name Backend.chroma
        ∈ get_available_dbs (fun b => decide (b = Backend.faiss))
      ↔ decide (Backend.chroma = Backend.faiss) = true :=
  claim7_amended_lists_available (fun b => decide (b = Backend.faiss))
    Backend.faiss (by decide) Backend.chroma

/-- Association lookup in the `embedding_cache` dictionary of
`process_document` (`document_processor.py` lines 118-123), keyed by chunk
content. -/
def lookupCache : List (String × List ℚ) → String → Option (List ℚ)
  | [], _ => none
  | (k, v) :: rest, t => if k = t then some v else lookupCache rest t

/-- `get_embedding_cached` (`document_processor.py` lines 119-123): on a
cache miss the Embedding Provider `f` is called and the result stored; on a
hit the cached value is returned.  The result carries the embedding, the
updated cache, and the number of provider calls made (0 or 1). -/
def get_embedding_cached (f : String → List ℚ)
    (cache : List (String × List ℚ)) (t : String) :
    List ℚ × List (String × List ℚ) × Nat :=
  match lookupCache cache t with
  | some v => (v, cache, 0)
  | none => (f t, (t, f t) :: cache, 1)

/-- Run a sequence of cached-embedding accesses against a starting cache,
collecting the returned embeddings, the final cache, and the total number of
Embedding Provider calls. -/
def runCached (f : String → List ℚ) :
    List String → List (String × List ℚ) →
    List (List ℚ) × List (String × List ℚ) × Nat
  | [], c => ([], c, 0)
  | t :: ts, c =>
    let r := get_embedding_cached f c t
    let rest := runCached f ts r.2.1
    (r.1 :: rest.1, rest.2.1, r.2.2 + rest.2.2)

/-- The accesses `process_document` makes to the shared embedding cache when
all six backend sections index the whole batch: each section iterates over
every chunk content in order (`document_processor.py` lines 128-284). -/
def ingestionAccesses (contents : List String) : List String :=
  contents ++ contents ++ contents ++ contents ++ contents ++ contents

theorem lookupCache_some_mem (c : List (String × List ℚ)) (t : String)
    (v : List ℚ) (h : lookupCache c t = some v) : t ∈ c.map Prod.fst := by
  induction c with
  | nil => exact Option.noConfusion h
  | cons hd rest ih =>
    obtain ⟨k, w⟩ := hd
    by_cases hk : k = t
    · simp [hk]
    · simp only [lookupCache, hk, Bool.false_eq_true, if_false] at h
      simp only [List.map_cons, List.mem_cons]
      exact Or.inr (ih h)

theorem lookupCache_none_not_mem (c : List (String × List ℚ)) (t : String)
    (h : lookupCache c t = none) : t ∉ c.map Prod.fst := by
  induction c with
  | nil => simp
  | cons hd rest ih =>
    obtain ⟨k, w⟩ := hd
    by_cases hk : k = t
    · simp only [lookupCache, hk, if_true] at h
      exact Option.noConfusion h
    · simp only [lookupCache, hk, Bool.false_eq_true, if_false] at h
      simp only [List.map_cons, List.mem_cons, not_or]
      exact ⟨fun he => hk he.symm, ih h⟩

/-- Cached values are always the provider's value for their key. -/
def cacheOK (f : String → List ℚ) (c : List (String × List ℚ)) : Prop :=
  ∀ t v, lookupCache c t = some v → v = f t

theorem cacheOK_insert (f : String → List ℚ) (c : List (String × List ℚ))
    (hc : cacheOK f c) (s : String) : cacheOK f ((s, f s) :: c) := by
  intro t v h
  by_cases hk : s = t
  · subst hk
    simp only [lookupCache, if_true] at h
    exact (Option.some_injective _ h).symm
  · simp only [lookupCache, hk, Bool.false_eq_true, if_false] at h
    exact hc t v h

theorem runCached_values (f : String → List ℚ) (l : List String)
    (c : List (String × List ℚ)) (hc : cacheOK f c) :
    (runCached f l c).1 = l.map f := by
  induction l generalizing c with
  | nil => rfl
  | cons t ts ih =>
    simp only [runCached, List.map_cons]
    rcases hl : lookupCache c t with _ | v
    · simp only [get_embedding_cached, hl]
      exact congrArg _ (ih _ (cacheOK_insert f c hc t))
    · simp only [get_embedding_cached, hl]
      rw [hc t v hl]
      exact congrArg _ (ih _ hc)

theorem runCached_calls (f : String → List ℚ) (l : List String)
    (c : List (String × List ℚ)) :
    (runCached f l c).2.2
      = (l.toFinset \ (c.map Prod.fst).toFinset).card := by
  induction l generalizing c with
  | nil => simp [runCached]
  | cons t ts ih =>
    simp only [runCached, List.toFinset_cons]
    rcases hl : lookupCache c t with _ | v
    · -- cache miss: one provider call, and t joins the cache keys
      have htK : t ∉ (c.map Prod.fst).toFinset := by
        simpa using lookupCache_none_not_mem c t hl
      simp only [get_embedding_cached, hl, ih]
      have hkeys : (((t, f t) :: c).map Prod.fst).toFinset
          = insert t (c.map Prod.fst).toFinset := by
        simp
      rw [hkeys]
      have hsplit : insert t ts.toFinset \ (c.map Prod.fst).toFinset
          = insert t (ts.toFinset \ insert t (c.map Prod.fst).toFinset) := by
        ext x
        by_cases hx : x = t
        · subst hx
          simp [htK]
        · simp [hx]
      rw [hsplit, Finset.card_insert_of_not_mem (by simp)]
      omega
    · -- cache hit: no provider call, and t is already a cache key
      have htK : t ∈ (c.map Prod.fst).toFinset := by
        simpa using lookupCache_some_mem c t v hl
      have hset : insert t ts.toFinset \ (c.map Prod.fst).toFinset
          = ts.toFinset \ (c.map Prod.fst).toFinset := by
        ext x
        by_cases hx : x = t
        · subst hx
          simp [htK]
        · simp [hx]
      simp only [get_embedding_cached, hl, ih, hset, Nat.zero_add]

/-- **C8**: within one ingestion call the Embedding Provider is invoked
exactly once per distinct chunk content — over the full six-backend access
sequence the number of provider calls equals the number of distinct contents
(independent of the number of backends), and every access receives the
provider's value for its content (the cached value is reused). -/
theorem claim8_embedding_once_per_content (f : String → List ℚ)
    (contents : List String) :
    (runCached f (ingestionAccesses contents) []).2.2
        = contents.toFinset.card
    ∧ (runCached f (ingestionAccesses contents) []).1
        = (ingestionAccesses contents).map f := by
  constructor
  · rw [runCached_calls]
    simp [ingestionAccesses, List.toFinset_append]
  · exact runCached_values f _ []
      (fun t v h => Option.noConfusion h)

/-- `get_embedding` (`app.py` lines 149-155): returns `[]` for falsy (empty)
input text and a constant vector of 768 zeros otherwise. -/
def get_embedding (text : String) : List ℚ :=
  if text = "" then [] else List.replicate 768 0

/-- **C9**: the embedding function returns the empty list on empty input and
the constant all-zeros vector of length 768 on every non-empty input, so any
two non-empty texts receive identical embeddings. -/
theorem claim9_constant_embedding :
    get_embedding "" = []
    ∧ (∀ t : String, t ≠ "" → get_embedding t = List.replicate 768 0)
    ∧ (∀ t₁ t₂ : String, t₁ ≠ "" → t₂ ≠ "" →
        get_embedding t₁ = get_embedding t₂) := by
  refine ⟨rfl, fun t ht => by simp [get_embedding, ht],
    fun t₁ t₂ h1 h2 => by simp [get_embedding, h1, h2]⟩

/-- Witness for C9 at two concrete non-empty texts. -/
theorem claim9_witness :
    get_embedding "alpha" = List.replicate 768 0
    ∧ get_embedding "alpha" = get_embedding "beta" :=
  ⟨claim9_constant_embedding.2.1 "alpha" (by decide),
   claim9_constant_embedding.2.2 "alpha" "beta" (by decide) (by decide)⟩

/-- A chunk document as handed to a store adapter: content plus the metadata
fields populated by `process_document`. -/
structure ChunkDoc where
  content : String
  source : String
  page : Int
  chunkId : Int
deriving DecidableEq, Repr

/-- The row `MilvusVectorStore.add_document` inserts
(`milvus_store.py` lines 106-116). -/
structure MilvusRow where
  id : String
  content : String
  source : String
  page : Int
  chunkId : Int
  embedding : List ℚ
deriving DecidableEq, Repr

/-- The dimension-check fallback of `MilvusVectorStore.add_document`
(`milvus_store.py` lines 94-103): an embedding whose length differs from the
schema dimension 768 is truncated if longer and zero-padded if shorter. -/
def milvusResize (e : List ℚ) : List ℚ :=
  if e.length ≠ 768 then
    if 768 < e.length then e.take 768
    else e ++ List.replicate (768 - e.length) 0
  else e

/-- `MilvusVectorStore.add_document` (`milvus_store.py` lines 81-121) on the
successful-insert path: when the store is not initialized (the code's
`self.initialized`, here `inited`) it returns False storing nothing;
otherwise it resizes the embedding as needed, inserts the row (the generated
uuid is the parameter `docId`) and returns True.  Driver/network failures,
which also return False, are outside the model. -/
def milvus_add_document (inited : Bool) (docId : String) (doc : ChunkDoc)
    (embedding : List ℚ) : Bool × Option MilvusRow :=
  if !inited then (false, none)
  else (true, some ⟨docId, doc.content, doc.source, doc.page, doc.chunkId,
    milvusResize embedding⟩)

/-- **C4** (code bug): for a Milvus backend with schema dimension 768, adding
a chunk whose embedding has length 3 does *not* fail — the embedding is
silently zero-padded to length 768, the record is stored, and the add
operation reports success, contradicting the fatal-mismatch requirement. -/
theorem claim4_milvus_pads_short_embedding :
    milvus_add_document true "id-0" ⟨"chunk text", "file.pdf", 0, 0⟩ [1, 2, 3]
      = (true, some ⟨"id-0", "chunk text", "file.pdf", 0, 0,
          [1, 2, 3] ++ List.replicate 765 0⟩)
    ∧ (milvusResize [1, 2, 3]).length = 768 := by
  constructor
  · simp only [milvus_add_document, Bool.not_true, Bool.false_eq_true,
      if_false, milvusResize]
    norm_num
  · simp only [milvusResize]
    norm_num

/-- A document as stored in the MongoDB `documents` collection
(`mongodb_store.py` lines 100-106); `metadata` is carried opaquely. -/
structure MongoStored where
  content : String
  metadata : String
  embedding : List ℚ
deriving DecidableEq, Repr

/-- A formatted result of `MongoDBVectorStore.similarity_search`
(`mongodb_store.py` lines 189-199). -/
structure MongoResult where
  content : String
  metadata : String
  score : ℚ
deriving DecidableEq, Repr

/-- `MongoDBVectorStore.similarity_search` (`mongodb_store.py` lines
135-203).  A `none` collection (initialization failed) yields `[]`.  On an
Atlas server the query is delegated to the server-side `$vectorSearch`
(parameter `atlas`).  On a non-Atlas server the code runs
`find({}, projection).limit(k)` — the first `k` stored documents in natural
order, ignoring both the query text and the query embedding — and attaches
the dummy score `0.0` to each. -/
def mongo_similarity_search (atlas : List ℚ → Nat → List MongoResult)
    (isAtlas : Bool) (collection : Option (List MongoStored))
    (query : String) (queryEmbedding : List ℚ) (k : Nat) :
    List MongoResult :=
  match collection with
  | none => []
  | some docs =>
    if isAtlas then
      (atlas queryEmbedding k).map (fun d => ⟨d.content, d.metadata, d.score⟩)
    else
      (docs.take k).map (fun d => ⟨d.content, d.metadata, 0⟩)

/-- **C10**: on a non-Atlas server, `similarity_search`'s output is
independent of both the query text and the query embedding — two runs over
the same stored collection with different queries and embeddings return the
same documents, namely the first `k` stored documents, each carrying the
dummy score `0.0`. -/
theorem claim10_non_atlas_ignores_query
    (atlas : List ℚ → Nat → List MongoResult)
    (collection : Option (List MongoStored)) (q₁ q₂ : String)
    (e₁ e₂ : List ℚ) (k : Nat) :
    mongo_similarity_search atlas false collection q₁ e₁ k
      = mongo_similarity_search atlas false collection q₂ e₂ k
    ∧ (mongo_similarity_search atlas false collection q₁ e₁ k).all
        (fun r => decide (r.score = 0)) = true
    ∧ mongo_similarity_search atlas false collection q₁ e₁ k
        = (match collection with
           | none => []
           | some docs =>
             (docs.take k).map (fun d => ⟨d.content, d.metadata, 0⟩)) := by
  refine ⟨rfl, ?_, ?_⟩
  · cases collection with
    | none => rfl
    | some docs =>
      simp only [mongo_similarity_search, Bool.false_eq_true, if_false,
        List.all_eq_true, List.mem_map]
      rintro r ⟨d, hd, rfl⟩
      simp
  · cases collection <;> rfl
